import Mathlib

/-!
Verification of the upload/processing and progress-polling client of the
yug-videoai dashboard.

The definitions below are a shallow embedding of the TypeScript source:

* `handleResponse`, `processVideo`, `generateClips`, `uploadYoutubeVideo`
  embed the API client (`src/lib/api.ts`).
* `mockUploadVideo`, `mockGetUserVideos`, `mockProcessVideo`,
  `mockUploadYoutubeVideo`, `getYoutubeVideoId` embed the mock fallback
  layer (`MockApiHandler`).
* `validateFiles` embeds the upload component's validation step
  (`UploadSection.tsx`).

Asynchrony is modelled by replaying, from an explicit environment, the
sequence of transport outcomes each fetch would observe; timers are
modelled as the (finite) list of interval ticks that fire before the loop
clears itself.  Nondeterministic data (generated ids, wall-clock strings)
are passed in as parameters.  JavaScript numbers that the client only
relays are modelled as `Nat`.
-/

set_option linter.unusedVariables false

/-- Lifecycle status union `"completed" | "processing" | "failed"`. -/
inductive Status where
  | completed
  | processing
  | failed
deriving DecidableEq, Repr

/-- The `VideoData` interface of `src/lib/api.ts`.  In JavaScript every
field of an object may be absent (the code casts partial objects
`as VideoData`), so all fields except `id` are `Option`s; the
media-analysis metadata (`detectedSubjects`, `engagementMetrics`) is not
touched by any modelled operation and is omitted. -/
structure VideoData where
  id : String
  name : Option String := none
  platform : Option String := none
  date : Option String := none
  status : Option Status := none
  thumbnail : Option String := none
  duration : Option String := none
  size : Option String := none
  url : Option String := none
deriving DecidableEq, Repr

/-- The `ClipData` interface of `src/lib/api.ts`. -/
structure ClipData where
  id : String
  title : String
  platform : String
  duration : Nat
  thumbnail : String
  status : Status
  url : String
deriving DecidableEq, Repr

/-- The `ApiResponse<T>` envelope: `{ data?: T; error?: string }`. -/
structure ApiResponse (α : Type) where
  data : Option α := none
  error : Option String := none
deriving DecidableEq, Repr

/-- What `handleResponse` observes about one transport response:
the `ok` flag, whether the content type is JSON, the `message` field of
the parsed JSON body when the body has one, and the parsed body itself
interpreted at the expected payload type. -/
structure TransportResponse (α : Type) where
  ok : Bool
  isJson : Bool
  message : Option String := none
  payload : α
deriving DecidableEq, Repr

/-- Outcome of one `fetch`: either the transport threw, or it produced a
response. -/
inductive Fetch (α : Type) where
  | threw (msg : String)
  | got (r : α)
deriving DecidableEq, Repr

/-- JavaScript truthiness of the optional string `data.message`:
present and non-empty. -/
def jsTruthy : Option String → Bool
  | some s => !s.isEmpty
  | none => false

/-- `handleResponse` (`src/lib/api.ts`, lines 81-93): on a non-ok status
return `{ error: isJson && data.message ? data.message : "An error occurred" }`,
otherwise `{ data }`. -/
def handleResponse {α : Type} (r : TransportResponse α) : ApiResponse α :=
  if !r.ok then
    { error := some (if r.isJson && jsTruthy r.message then r.message.getD "" else "An error occurred") }
  else
    { data := some r.payload }

/-- `{jobId}` payload of a job-submission response. -/
structure JobSubmit where
  jobId : String
deriving DecidableEq, Repr

/-- Payload of `GET /api/jobs/:jobId/progress`: `{ progress, completed,
videoData? }` (`videoData` is only read by `uploadYoutubeVideo`). -/
structure ProgressPayload where
  progress : Nat
  completed : Bool
  videoData : Option VideoData := none
deriving DecidableEq, Repr

/-- One firing of the 1000 ms poll interval: the poll fetch (or its JSON
parse) threw — caught and logged by the interval callback — or it
produced a transport response. -/
inductive PollTick where
  | throwErr
  | resp (tr : TransportResponse ProgressPayload)
deriving DecidableEq, Repr

/-- What the poll loop of a job does before the interval stops firing:
the values fed to the caller's `onProgress`, the number of poll requests
issued, whether `clearInterval` ran, and the final-result envelope the
interval callback computed after `completed` (a value the callback
`return`s into the timer machinery, not to the submitting caller). -/
structure PollObs (ρ : Type) where
  calls : List Nat := []
  polls : Nat := 0
  cleared : Bool := false
  inner : Option (ApiResponse ρ) := none
deriving DecidableEq, Repr

/-- The poll interval callback, run over the ticks that fire
(`src/lib/api.ts` lines 428-456, 503-531, 685-721): on a thrown fetch,
log and keep going; when the envelope has `data`, call `onProgress` with
the raw `progress`, and if `completed` stop the interval and compute the
final result with `finish`; when the envelope is an error, do nothing
and keep going. -/
def runPollLoop {ρ : Type} (finish : ProgressPayload → Option (ApiResponse ρ)) :
    List PollTick → PollObs ρ
  | [] => {}
  | PollTick.throwErr :: rest =>
      let o := runPollLoop finish rest
      { o with polls := o.polls + 1 }
  | PollTick.resp tr :: rest =>
      match (handleResponse tr).data with
      | none =>
          let o := runPollLoop finish rest
          { o with polls := o.polls + 1 }
      | some pd =>
          if pd.completed then
            { calls := [pd.progress], polls := 1, cleared := true, inner := finish pd }
          else
            let o := runPollLoop finish rest
            { o with calls := pd.progress :: o.calls, polls := o.polls + 1 }

/-- Environment replayed to `processVideo`: the submit response, the poll
ticks its interval would observe, and the response to the
`GET /api/videos/:id` fetch made once a poll reports completion. -/
structure PVEnv where
  submit : Fetch (TransportResponse JobSubmit)
  polls : List PollTick := []
  videoFetch : Fetch (TransportResponse VideoData)

/-- Final-result computation of `processVideo`'s interval callback: one
more fetch of the video resource; a throw there is caught and logged by
the callback, leaving no result. -/
def pvFinish (env : PVEnv) : ProgressPayload → Option (ApiResponse VideoData) :=
  fun _ =>
    match env.videoFetch with
    | Fetch.threw _ => none
    | Fetch.got r => some (handleResponse r)

/-- What a submitting operation produces overall: the envelope its caller
receives, every `onProgress` invocation, and the poll-loop observation
(defaults when no polling started). -/
structure RunResult (α : Type) where
  result : ApiResponse α
  callerCalls : List Nat := []
  obs : PollObs α := {}
deriving Repr

/-- Placeholder `{ id: videoId, status: "processing" } as VideoData`. -/
def pvPlaceholder (videoId : String) : VideoData :=
  { id := videoId, status := some Status.processing }

/-- `processVideo` (`src/lib/api.ts` lines 402-469): submit, then — only
when an `onProgress` callback was supplied — start the poll interval; in
both modes the caller immediately receives the `"processing"`
placeholder.  The request body (`settings`) is absorbed by the
environment.  A submit throw is caught by the outer `catch` and returned
as an error envelope. -/
def processVideo (videoId : String) (hasCallback : Bool) (env : PVEnv) :
    RunResult VideoData :=
  match env.submit with
  | Fetch.threw msg => { result := { error := some msg } }
  | Fetch.got tr =>
      match (handleResponse tr).data with
      | none => { result := { error := (handleResponse tr).error } }
      | some _ =>
          if hasCallback then
            let o := runPollLoop (pvFinish env) env.polls
            { result := { data := some (pvPlaceholder videoId) },
              callerCalls := o.calls, obs := o }
          else
            { result := { data := some (pvPlaceholder videoId) } }

/-- Environment replayed to `generateClips`: submit response, poll ticks,
and the `GET /api/videos/:id/clips` response fetched on completion. -/
structure GCEnv where
  submit : Fetch (TransportResponse JobSubmit)
  polls : List PollTick := []
  clipsFetch : Fetch (TransportResponse (List ClipData))

/-- Final-result computation of `generateClips`' interval callback. -/
def gcFinish (env : GCEnv) : ProgressPayload → Option (ApiResponse (List ClipData)) :=
  fun _ =>
    match env.clipsFetch with
    | Fetch.threw _ => none
    | Fetch.got r => some (handleResponse r)

/-- `generateClips` (`src/lib/api.ts` lines 472-544): submit, then poll
only when a callback was supplied; in both modes the caller immediately
receives `{ data: [] }`. -/
def generateClips (videoId : String) (hasCallback : Bool) (env : GCEnv) :
    RunResult (List ClipData) :=
  match env.submit with
  | Fetch.threw msg => { result := { error := some msg } }
  | Fetch.got tr =>
      match (handleResponse tr).data with
      | none => { result := { error := (handleResponse tr).error } }
      | some _ =>
          if hasCallback then
            let o := runPollLoop (gcFinish env) env.polls
            { result := { data := some [] }, callerCalls := o.calls, obs := o }
          else
            { result := { data := some [] } }

/-- Fixed tick of the mock upload timers: 200 ms. -/
def mockUploadTickMs : Nat := 200

/-- Fixed step of the mock upload progress counter: 5 percent per tick. -/
def mockUploadStepPercent : Nat := 5

/-- One run of the mock `setInterval` progress loop: each tick adds
`step` to the counter, reports it, and the interval clears itself once
the counter reaches 100.  The fuel argument bounds the (in the source,
implicitly finite for positive steps) number of ticks. -/
def simProgressAux (step : Nat) : Nat → Nat → List Nat
  | 0, _ => []
  | fuel + 1, cur =>
      let p := cur + step
      if 100 ≤ p then [p] else p :: simProgressAux step fuel p

/-- Progress values reported by a mock timer loop with the given step. -/
def simProgress (step : Nat) : List Nat :=
  simProgressAux step 100 0

/-- Two-digit rendering of the fractional part. -/
def pad2 (n : Nat) : String :=
  if n < 10 then "0" ++ toString n else toString n

/-- Rendering of `(file.size / (1024 * 1024)).toFixed(2) + " MB"`:
the byte size in mebibytes rounded (half up) to two decimals.  The
source rounds an IEEE double; on the sizes the claims use the two
agree exactly. -/
def formatMB (bytes : Nat) : String :=
  let h := (bytes * 100 + 524288) / 1048576
  toString (h / 100) ++ "." ++ pad2 (h % 100) ++ " MB"

/-- A browser `File` as the modelled code reads it: name and byte size. -/
structure FileInfo where
  name : String
  size : Nat
deriving DecidableEq, Repr

/-- The three records seeding the module-level `mockVideos` array of
`MockApiHandler`. -/
def mockVideosInit : List VideoData :=
  [ { id := "1", name := some "Product Demo.mp4", platform := some "YouTube",
      date := some "2023-06-15", status := some Status.completed,
      thumbnail := some "https://images.unsplash.com/photo-1611162616475-46b635cb6868?w=120&q=80",
      duration := some "2:15", size := some "24.5 MB" },
    { id := "2", name := some "Tutorial Video.mp4", platform := some "Instagram",
      date := some "2023-06-14", status := some Status.processing,
      thumbnail := some "https://images.unsplash.com/photo-1626379953822-baec19c3accd?w=120&q=80",
      duration := some "1:30", size := some "18.2 MB" },
    { id := "3", name := some "Marketing Clip.mp4", platform := some "TikTok",
      date := some "2023-06-13", status := some Status.failed,
      thumbnail := some "https://images.unsplash.com/photo-1536240478700-b869070f9279?w=120&q=80",
      duration := some "0:45", size := some "8.7 MB" } ]

/-- Observable outcome of `mockUploadVideo`: the resolved record, the
`onProgress` invocations, and the `mockVideos` list afterwards. -/
structure MockUploadRun where
  record : VideoData
  calls : List Nat
  state : List VideoData
deriving DecidableEq, Repr

/-- `mockUploadVideo` (`MockApiHandler`, lines 43-78): advance the
simulated counter by 5 per tick, reporting each value when a callback
was supplied; at 100 synthesize a record echoing the file's name and
size and unshift it onto `mockVideos`, then resolve with it.  The
generated id and the current date are passed in (`Math.random`,
`new Date`). -/
def mockUploadVideo (file : FileInfo) (genId today : String)
    (hasCallback : Bool) (st : List VideoData) : MockUploadRun :=
  let videoData : VideoData :=
    { id := genId,
      name := some file.name,
      platform := some "Unknown",
      date := some today,
      status := some Status.completed,
      thumbnail := some "https://images.unsplash.com/photo-1611162616475-46b635cb6868?w=120&q=80",
      duration := some "1:30",
      size := some (formatMB file.size) }
  { record := videoData,
    calls := if hasCallback then simProgress mockUploadStepPercent else [],
    state := videoData :: st }

/-- Heap of array cells, for stating aliasing between the module-level
`mockVideos` array and arrays handed to callers. -/
abbrev Store := List (List VideoData)

/-- Read an array cell (JS arrays are references into the heap). -/
def readRef (s : Store) (r : Nat) : List VideoData :=
  s.getD r []

/-- Replace an array cell's contents (any caller-side mutation of the
array it holds: push, splice, sort, ...). -/
def writeRef (s : Store) (r : Nat) (v : List VideoData) : Store :=
  s.set r v

/-- Allocate a fresh array cell. -/
def allocRef (s : Store) (v : List VideoData) : Nat × Store :=
  (s.length, s ++ [v])

/-- `mockGetUserVideos` (`MockApiHandler`, lines 81-85): resolve with
`[...mockVideos]` — a freshly allocated array holding the current
contents of the module's cell. -/
def mockGetUserVideos (s : Store) (moduleRef : Nat) : Nat × Store :=
  allocRef s (readRef s moduleRef)

/-- The slice of `ProcessingSettings` the mock reads. -/
structure PSettings where
  platform : Option String := none
deriving DecidableEq, Repr

/-- JavaScript `a || b` on an optional string. -/
def jsOr (o : Option String) (d : String) : String :=
  match o with
  | some s => if s.isEmpty then d else s
  | none => d

/-- Observable outcome of `mockProcessVideo`: resolution or rejection,
`onProgress` invocations, and the `mockVideos` list afterwards. -/
structure MockProcessRun where
  result : Except String VideoData
  calls : List Nat
  state : List VideoData
deriving Repr

/-- `mockProcessVideo` (`MockApiHandler`, lines 99-128): look the video
up by id; when absent the executor throws `Error("Video not found")`,
which rejects the promise before any timer starts.  When present the
record is mutated in place — platform from the settings (`|| "YouTube"`),
status `"processing"` then, after the 10-per-tick progress loop,
`"completed"` — and a copy of the final record is resolved. -/
def mockProcessVideo (videoId : String) (settings : PSettings)
    (hasCallback : Bool) (st : List VideoData) : MockProcessRun :=
  match st.findIdx? (fun v => v.id == videoId) with
  | none => { result := Except.error "Video not found", calls := [], state := st }
  | some i =>
      let v := st.getD i { id := "" }
      let v1 := { v with status := some Status.processing,
                         platform := some (jsOr settings.platform "YouTube") }
      let v2 := { v1 with status := some Status.completed }
      { result := Except.ok v2,
        calls := if hasCallback then simProgress 10 else [],
        state := st.set i v2 }

/-- JavaScript regex `.` (no `s` flag): any character except a line
terminator. -/
def jsDot (c : Char) : Bool :=
  !(c == '\n' || c == '\r' || c == Char.ofNat 0x2028 || c == Char.ofNat 0x2029)

/-- JavaScript regex `\w`: ASCII letter, digit or underscore. -/
def isWordChar (c : Char) : Bool :=
  c.isAlphanum || c == '_'

/-- Alternative `(youtu.be\/)` — the unescaped dot matches any
non-terminator character. -/
def altYoutuBe : List Char → Bool
  | 'y' :: 'o' :: 'u' :: 't' :: 'u' :: c :: 'b' :: 'e' :: '/' :: _ => jsDot c
  | _ => false

/-- Alternative `(v\/)`. -/
def altV : List Char → Bool
  | 'v' :: '/' :: _ => true
  | _ => false

/-- Alternative `(\/u\/\w\/)`. -/
def altU : List Char → Bool
  | '/' :: 'u' :: '/' :: c :: '/' :: _ => isWordChar c
  | _ => false

/-- Alternative `(embed\/)`. -/
def altEmbed : List Char → Bool
  | 'e' :: 'm' :: 'b' :: 'e' :: 'd' :: '/' :: _ => true
  | _ => false

/-- Alternative `(watch\?)`. -/
def altWatch : List Char → Bool
  | 'w' :: 'a' :: 't' :: 'c' :: 'h' :: '?' :: _ => true
  | _ => false

/-- The marker alternation of the URL regex, tried in source order at
one position; returns how many characters it consumes. -/
def altAt (l : List Char) : Option Nat :=
  if altYoutuBe l then some 9
  else if altV l then some 2
  else if altU l then some 5
  else if altEmbed l then some 6
  else if altWatch l then some 6
  else none

/-- Backtracking of the greedy leading `^.*`: the match position of the
marker is the largest index (at most `i`) where an alternative matches.
Returns that index and the marker's length. -/
def scanDesc (l : List Char) : Nat → Option (Nat × Nat)
  | 0 => (altAt l).map (fun k => (0, k))
  | i + 1 =>
      match altAt (l.drop (i + 1)) with
      | some k => some (i + 1, k)
      | none => scanDesc l i

/-- Greedy match of an optional literal character (`\??`, `v?`, `=?`);
nothing after it can fail, so no backtracking arises. -/
def consumeOpt (c : Char) : List Char → List Char
  | [] => []
  | d :: rest => if d == c then rest else d :: rest

/-- `getYoutubeVideoId` (`MockApiHandler`, lines 137-142): match the URL
against
`/^.*((youtu.be\/)|(v\/)|(\/u\/\w\/)|(embed\/)|(watch\?))\??v?=?([^#&?]*).*/`
and return capture group 7 when it is exactly 11 characters long.  The
leading `^.*` cannot cross a line terminator, so markers are searched
within the first line only; everything after group 7 is optional, so the
greedy choices never backtrack. -/
def getYoutubeVideoId (url : String) : Option String :=
  let l := url.toList
  let limit := (l.takeWhile jsDot).length
  match scanDesc l limit with
  | none => none
  | some (i, k) =>
      let rest := consumeOpt '=' (consumeOpt 'v' (consumeOpt '?' (l.drop (i + k))))
      let idChars := rest.takeWhile (fun c => !(c == '#' || c == '&' || c == '?'))
      if idChars.length == 11 then some (String.mk idChars) else none

/-- Observable outcome of `mockUploadYoutubeVideo`. -/
structure MockYTRun where
  result : Except String VideoData
  calls : List Nat
  state : List VideoData
deriving Repr

/-- `mockUploadYoutubeVideo` (`MockApiHandler`, lines 131-181): reject
with `Error("Invalid YouTube URL")` when no 11-character id can be
extracted — before any simulated progress; otherwise run the
5-per-tick progress loop, synthesize a record whose id and thumbnail
embed the extracted id, unshift it onto `mockVideos` and resolve with
it.  The wall-clock strings are passed in. -/
def mockUploadYoutubeVideo (youtubeUrl : String) (hasCallback : Bool)
    (timeStr today : String) (st : List VideoData) : MockYTRun :=
  match getYoutubeVideoId youtubeUrl with
  | none => { result := Except.error "Invalid YouTube URL", calls := [], state := st }
  | some vid =>
      let videoData : VideoData :=
        { id := "yt-" ++ vid,
          name := some ("YouTube Import - " ++ timeStr),
          platform := some "YouTube",
          date := some today,
          status := some Status.completed,
          thumbnail := some ("https://img.youtube.com/vi/" ++ vid ++ "/mqdefault.jpg"),
          duration := some "3:45",
          size := some "32.7 MB",
          url := some ("https://www.youtube.com/watch?v=" ++ vid) }
      { result := Except.ok videoData,
        calls := if hasCallback then simProgress 5 else [],
        state := videoData :: st }

/-- Environment replayed to `uploadYoutubeVideo`: the submit response,
the poll ticks, the response to the `GET /api/jobs/:jobId/result` fetch,
and the wall-clock strings the mock fallback would read. -/
structure YTEnv where
  submit : Fetch (TransportResponse JobSubmit)
  polls : List PollTick := []
  resultFetch : Fetch (TransportResponse VideoData)
  timeStr : String := ""
  today : String := ""

/-- Final-result computation of `uploadYoutubeVideo`'s interval
callback: use the inline `videoData` of the completed poll when present,
otherwise fetch the job's result resource (a throw there is caught and
logged, leaving no result). -/
def ytFinish (env : YTEnv) (pd : ProgressPayload) : Option (ApiResponse VideoData) :=
  match pd.videoData with
  | some v => some { data := some v }
  | none =>
      match env.resultFetch with
      | Fetch.threw _ => none
      | Fetch.got r => some (handleResponse r)

/-- Observable outcome of `uploadYoutubeVideo`: the caller's envelope,
all `onProgress` invocations, the poll-loop observation, and the
`mockVideos` list afterwards (it changes only on the fallback path). -/
structure YTRun where
  result : ApiResponse VideoData
  callerCalls : List Nat := []
  obs : PollObs VideoData := {}
  state : List VideoData
deriving Repr

/-- The fallback path of `uploadYoutubeVideo`: run the mock; a mock
rejection is rethrown and caught by the outer `catch`, which returns its
message as the error envelope. -/
def ytFallback (youtubeUrl : String) (hasCallback : Bool) (calls0 : List Nat)
    (env : YTEnv) (st : List VideoData) : YTRun :=
  let m := mockUploadYoutubeVideo youtubeUrl hasCallback env.timeStr env.today st
  match m.result with
  | Except.ok v =>
      { result := { data := some v }, callerCalls := calls0 ++ m.calls, state := m.state }
  | Except.error msg =>
      { result := { error := some msg }, callerCalls := calls0 ++ m.calls, state := m.state }

/-- `uploadYoutubeVideo` (`src/lib/api.ts` lines 649-754): report 5,
submit; on a submit throw fall back to the mock.  On a submit error
envelope return it unchanged.  Otherwise, with a callback: report 10,
start the poll interval and immediately return the
`{ id: jobId, status: "processing" }` placeholder; without a callback:
wait for one fetch of the job's result resource and return its envelope
(falling back to the mock when that fetch throws). -/
def uploadYoutubeVideo (youtubeUrl : String) (hasCallback : Bool) (quality : String)
    (env : YTEnv) (st : List VideoData) : YTRun :=
  let calls0 := if hasCallback then [5] else []
  match env.submit with
  | Fetch.threw _ => ytFallback youtubeUrl hasCallback calls0 env st
  | Fetch.got tr =>
      match (handleResponse tr).data with
      | none => { result := { error := (handleResponse tr).error },
                  callerCalls := calls0, state := st }
      | some js =>
          if hasCallback then
            let o := runPollLoop (ytFinish env) env.polls
            { result := { data := some (pvPlaceholder js.jobId) },
              callerCalls := calls0 ++ 10 :: o.calls, obs := o, state := st }
          else
            match env.resultFetch with
            | Fetch.threw _ => ytFallback youtubeUrl hasCallback calls0 env st
            | Fetch.got r2 =>
                { result := handleResponse r2, callerCalls := calls0, state := st }

/-- Default `supportedFormats` prop of `UploadSection`. -/
def defaultSupportedFormats : List String :=
  [".mp4", ".mov", ".avi", ".mkv", ".webm"]

/-- Default `maxFileSize` prop of `UploadSection` (megabytes). -/
def defaultMaxFileSize : Nat := 500

/-- `` `.${file.name.split(".").pop()?.toLowerCase()}` ``: a dot, then
the lowercased characters after the last dot of the name (the whole name
when it has no dot, matching `split`/`pop`). -/
def extensionOf (name : String) : String :=
  String.mk ('.' ::
    ((name.toList.reverse.takeWhile (fun c => c != '.')).reverse.map Char.toLower))

/-- `validateFiles` of `UploadSection.tsx` (lines 117-147), with the
error state threaded explicitly: `setError(null)`, then for each file in
order, an unsupported extension or an oversized file overwrites the
error message and skips the file; the rest are collected.  Returns the
valid files and the error left behind. -/
def validateFilesGo (supported : List String) (maxFileSize : Nat) :
    List FileInfo → Option String → List FileInfo × Option String
  | [], err => ([], err)
  | f :: rest, err =>
      let ext := extensionOf f.name
      if !(supported.contains ext) then
        validateFilesGo supported maxFileSize rest
          (some ("Unsupported file format: " ++ ext ++ ". Please use: " ++
            String.intercalate ", " supported))
      else if f.size > maxFileSize * 1024 * 1024 then
        validateFilesGo supported maxFileSize rest
          (some ("File too large: " ++ f.name ++ ". Maximum size is " ++
            toString maxFileSize ++ "MB"))
      else
        let r := validateFilesGo supported maxFileSize rest err
        (f :: r.1, r.2)

/-- Entry point of the validation step (`setError(null)` first). -/
def validateFiles (supported : List String) (maxFileSize : Nat)
    (files : List FileInfo) : List FileInfo × Option String :=
  validateFilesGo supported maxFileSize files none

/-- Decides whether `sub` is an initial segment of `l`. -/
def listLead : List Char → List Char → Bool
  | [], _ => true
  | _ :: _, [] => false
  | a :: as, b :: bs => a == b && listLead as bs

/-- Decides whether `sub` occurs contiguously inside `l`. -/
def listOccurs (sub : List Char) : List Char → Bool
  | [] => sub.isEmpty
  | c :: rest => listLead sub (c :: rest) || listOccurs sub rest

/-- `s` contains `sub` as a contiguous substring. -/
def ContainsSub (s sub : String) : Prop :=
  ∃ p q : List Char, s.toList = p ++ sub.toList ++ q

theorem listLead_iff (sub l : List Char) :
    listLead sub l = true ↔ ∃ q, l = sub ++ q := by
  induction sub generalizing l with
  | nil => simp [listLead]
  | cons a as ih =>
    cases l with
    | nil => simp [listLead]
    | cons b bs =>
      simp only [listLead, Bool.and_eq_true, beq_iff_eq, ih]
      constructor
      · rintro ⟨rfl, q, rfl⟩
        exact ⟨q, rfl⟩
      · rintro ⟨q, h⟩
        obtain ⟨rfl, rfl⟩ : b = a ∧ bs = as ++ q := by
          simpa using congrArg (fun x => (x.head?, x.tail)) h
        exact ⟨rfl, q, rfl⟩

theorem listOccurs_iff (sub l : List Char) :
    listOccurs sub l = true ↔ ∃ p q, l = p ++ sub ++ q := by
  induction l with
  | nil =>
    simp only [listOccurs, List.isEmpty_iff]
    constructor
    · rintro rfl
      exact ⟨[], [], rfl⟩
    · rintro ⟨p, q, h⟩
      rcases List.append_eq_nil.mp (List.append_eq_nil.mp h.symm).1 with ⟨-, h2⟩
      exact h2
  | cons c rest ih =>
    simp only [listOccurs, Bool.or_eq_true, listLead_iff, ih]
    constructor
    · rintro (⟨q, h⟩ | ⟨p, q, h⟩)
      · exact ⟨[], q, by simpa using h⟩
      · exact ⟨c :: p, q, by simp [h]⟩
    · rintro ⟨p, q, h⟩
      cases p with
      | nil => exact Or.inl ⟨q, by simpa using h⟩
      | cons x xs =>
        obtain ⟨rfl, h2⟩ : x = c ∧ rest = xs ++ sub ++ q := by
          constructor
          · simpa using congrArg List.head? h.symm
          · simpa using congrArg List.tail h
        exact Or.inr ⟨xs, q, h2⟩

theorem containsSub_iff_occurs (s sub : String) :
    ContainsSub s sub ↔ listOccurs sub.toList s.toList = true := by
  rw [listOccurs_iff]
  constructor
  · rintro ⟨p, q, h⟩
    exact ⟨p, q, by simpa [List.append_assoc] using h⟩
  · rintro ⟨p, q, h⟩
    exact ⟨p, q, by simpa [List.append_assoc] using h⟩

/-- The envelope data of one tick's poll response: absent on a thrown
fetch or an error envelope. -/
def tickData : PollTick → Option ProgressPayload
  | PollTick.throwErr => none
  | PollTick.resp tr => (handleResponse tr).data

/-- A tick that does not report completion (thrown fetch, error
envelope, or `completed=false`). -/
def benign (t : PollTick) : Bool :=
  match tickData t with
  | some pd => !pd.completed
  | none => true

/-- The `onProgress` values a run of ticks produces: the raw `progress`
of every tick whose envelope carried data. -/
def tickCalls (ts : List PollTick) : List Nat :=
  ts.filterMap (fun t => (tickData t).map (fun pd => pd.progress))

theorem runPollLoop_benign {ρ : Type} (finish : ProgressPayload → Option (ApiResponse ρ)) :
    ∀ ts : List PollTick, (∀ t ∈ ts, benign t = true) →
      runPollLoop finish ts =
        { calls := tickCalls ts, polls := ts.length, cleared := false, inner := none } := by
  intro ts h
  induction ts with
  | nil => rfl
  | cons t rest ih =>
    have hb : benign t = true := h t (List.mem_cons_self t rest)
    have hrest : ∀ x ∈ rest, benign x = true := fun x hx => h x (List.mem_cons_of_mem t hx)
    cases t with
    | throwErr =>
      simp [runPollLoop, ih hrest, tickCalls, tickData]
    | resp tr =>
      rcases h2 : (handleResponse tr).data with - | pd
      · simp [runPollLoop, h2, ih hrest, tickCalls, tickData]
      · have hc : pd.completed = false := by
          simpa [benign, tickData, h2] using hb
        simp [runPollLoop, h2, hc, ih hrest, tickCalls, tickData]

theorem runPollLoop_complete {ρ : Type} (finish : ProgressPayload → Option (ApiResponse ρ)) :
    ∀ (pre : List PollTick) (t : PollTick) (post : List PollTick) (pd : ProgressPayload),
      (∀ x ∈ pre, benign x = true) → tickData t = some pd → pd.completed = true →
      runPollLoop finish (pre ++ t :: post) =
        { calls := tickCalls pre ++ [pd.progress], polls := pre.length + 1,
          cleared := true, inner := finish pd } := by
  intro pre t post pd hpre ht hc
  induction pre with
  | nil =>
    cases t with
    | throwErr => simp [tickData] at ht
    | resp tr =>
      have h2 : (handleResponse tr).data = some pd := ht
      simp [runPollLoop, h2, hc, tickCalls]
  | cons x xs ih =>
    have hb : benign x = true := hpre x (List.mem_cons_self x xs)
    have hxs : ∀ y ∈ xs, benign y = true := fun y hy => hpre y (List.mem_cons_of_mem x hy)
    cases x with
    | throwErr =>
      simp [runPollLoop, ih hxs, tickCalls, tickData, List.length_cons]
    | resp tr =>
      rcases h2 : (handleResponse tr).data with - | pd2
      · simp [runPollLoop, h2, ih hxs, tickCalls, tickData]
      · have hf : pd2.completed = false := by
          simpa [benign, tickData, h2] using hb
        simp [runPollLoop, h2, hf, ih hxs, tickCalls, tickData]

theorem runPollLoop_skip_fail {ρ : Type} (finish : ProgressPayload → Option (ApiResponse ρ)) :
    ∀ (pre post : List PollTick), (∀ x ∈ pre, benign x = true) →
      runPollLoop finish (pre ++ PollTick.throwErr :: post) =
        { calls := tickCalls pre ++ (runPollLoop finish post).calls,
          polls := pre.length + 1 + (runPollLoop finish post).polls,
          cleared := (runPollLoop finish post).cleared,
          inner := (runPollLoop finish post).inner } := by
  intro pre post hpre
  induction pre with
  | nil =>
    simp [runPollLoop, tickCalls]
    omega
  | cons x xs ih =>
    have hb : benign x = true := hpre x (List.mem_cons_self x xs)
    have hxs : ∀ y ∈ xs, benign y = true := fun y hy => hpre y (List.mem_cons_of_mem x hy)
    cases x with
    | throwErr =>
      simp [runPollLoop, ih hxs, tickCalls, tickData]
      omega
    | resp tr =>
      rcases h2 : (handleResponse tr).data with - | pd2
      · simp [runPollLoop, h2, ih hxs, tickCalls, tickData]
        omega
      · have hf : pd2.completed = false := by
          simpa [benign, tickData, h2] using hb
        simp [runPollLoop, h2, hf, ih hxs, tickCalls, tickData]
        omega

/-- A non-ok JSON response whose `message` field is present but empty. -/
def trErrEmptyMsg : TransportResponse Nat :=
  { ok := false, isJson := true, message := some "", payload := 0 }

/-- A non-ok JSON response with `message: "boom"`. -/
def trErrBoom : TransportResponse Nat :=
  { ok := false, isJson := true, message := some "boom", payload := 0 }

/-- C4 counterexample: on a non-ok JSON response whose `message` field
is present but empty, `handleResponse` does not surface the message —
JavaScript truthiness treats `""` as absent and the generic string is
returned instead, contradicting the claim that the message is used
whenever the field is present. -/
theorem C4_empty_message_counterexample :
    trErrEmptyMsg.message = some "" ∧
    (handleResponse trErrEmptyMsg).error = some "An error occurred" ∧
    ("An error occurred" : String) ≠ "" := by
  refine ⟨rfl, rfl, by decide⟩

/-- C4 (amended): `handleResponse` returns exactly one of `data` or
`error`; on an ok status it returns the payload as `data`; on a non-ok
status it surfaces the JSON body's `message` field when that field is
present and non-empty, and the generic `"An error occurred"` when the
body is not JSON or the field is absent or empty. -/
theorem C4_envelope_exactly_one_amended :
    ∀ (α : Type) (r : TransportResponse α),
      (((handleResponse r).data.isSome ∧ (handleResponse r).error = none) ∨
        ((handleResponse r).data = none ∧ (handleResponse r).error.isSome)) ∧
      (r.ok = true → handleResponse r = { data := some r.payload, error := none }) ∧
      (r.ok = false → r.isJson = true → ∀ s : String, r.message = some s → s ≠ "" →
        (handleResponse r).error = some s) ∧
      (r.ok = false → (r.isJson = false ∨ r.message = none ∨ r.message = some "") →
        (handleResponse r).error = some "An error occurred") := by
  intro α r
  refine ⟨?_, ?_, ?_, ?_⟩
  · cases hok : r.ok
    · exact Or.inr (by simp [handleResponse, hok])
    · exact Or.inl (by simp [handleResponse, hok])
  · intro hok
    simp [handleResponse, hok]
  · intro hok hj s hm hs
    have hne : s.isEmpty = false := by
      cases h : s.isEmpty
      · rfl
      · exact absurd ((String.isEmpty_iff s).mp h) hs
    simp [handleResponse, hok, hj, jsTruthy, hm, hne]
  · intro hok hcase
    rcases hcase with hj | hm | hm
    · simp [handleResponse, hok, hj]
    · simp [handleResponse, hok, jsTruthy, hm]
    · have he : ("" : String).isEmpty = true := rfl
      simp [handleResponse, hok, jsTruthy, hm, he]

/-- C4 witness: the amended theorem applied to a concrete non-ok JSON
response carrying `message: "boom"`. -/
theorem C4_envelope_witness :
    trErrBoom.ok = false ∧ (handleResponse trErrBoom).error = some "boom" :=
  ⟨rfl, (C4_envelope_exactly_one_amended Nat trErrBoom).2.2.1 rfl rfl "boom" rfl (by decide)⟩

/-- C6: `mockUploadVideo` reports 5, 10, ..., 100 (one 5-percent step
per 200 ms tick), and resolves with a record echoing the file's name,
rendering its byte size in MB to two decimals, marked completed, and
prepended to the mock list; a 10 MB file renders as `"10.00 MB"`. -/
theorem C6_mockUploadVideo_contract :
    ∀ (file : FileInfo) (genId today : String) (st : List VideoData),
      (mockUploadVideo file genId today true st).calls =
        [5, 10, 15, 20, 25, 30, 35, 40, 45, 50,
         55, 60, 65, 70, 75, 80, 85, 90, 95, 100] ∧
      (mockUploadVideo file genId today true st).record.name = some file.name ∧
      (mockUploadVideo file genId today true st).record.size = some (formatMB file.size) ∧
      (mockUploadVideo file genId today true st).record.status = some Status.completed ∧
      (mockUploadVideo file genId today true st).state =
        (mockUploadVideo file genId today true st).record :: st ∧
      mockUploadTickMs = 200 ∧ mockUploadStepPercent = 5 ∧
      formatMB 10485760 = "10.00 MB" := by
  intro file genId today st
  exact ⟨rfl, rfl, rfl, rfl, rfl, rfl, rfl, by decide⟩

/-- C9: `mockGetUserVideos` resolves with a freshly allocated cell whose
contents equal the module list; the fresh cell is distinct from the
module's, so any caller-side mutation of the returned array leaves the
module's `mockVideos` unchanged. -/
theorem C9_mockGetUserVideos_fresh_copy :
    ∀ (s : Store) (moduleRef : Nat), moduleRef < s.length →
      (readRef (mockGetUserVideos s moduleRef).2 (mockGetUserVideos s moduleRef).1 =
        readRef s moduleRef) ∧
      (mockGetUserVideos s moduleRef).1 ≠ moduleRef ∧
      ∀ mutated : List VideoData,
        readRef (writeRef (mockGetUserVideos s moduleRef).2
          (mockGetUserVideos s moduleRef).1 mutated) moduleRef = readRef s moduleRef := by
  intro s r h
  refine ⟨?_, ?_, ?_⟩
  · show (s ++ [readRef s r]).getD s.length [] = readRef s r
    rw [List.getD_eq_getElem?_getD, List.getElem?_concat_length]
    rfl
  · show s.length ≠ r
    omega
  · intro mutated
    show ((s ++ [readRef s r]).set s.length mutated).getD r [] = readRef s r
    have hset : (s ++ [readRef s r]).set s.length mutated = s ++ [mutated] := by
      rw [List.set_append_right _ _ (Nat.le_refl s.length)]
      simp
    rw [hset]
    show (s ++ [mutated]).getD r [] = s.getD r []
    rw [List.getD_eq_getElem?_getD, List.getD_eq_getElem?_getD,
      List.getElem?_append_left h]

/-- C9 witness: the fresh-copy theorem at the seeded one-cell store,
with the returned array emptied by the caller. -/
theorem C9_fresh_copy_witness :
    readRef (writeRef (mockGetUserVideos [mockVideosInit] 0).2
      (mockGetUserVideos [mockVideosInit] 0).1 []) 0 = mockVideosInit :=
  (C9_mockGetUserVideos_fresh_copy [mockVideosInit] 0 (by decide)).2.2 []

theorem findIdx?_none_of_forall (p : VideoData → Bool) :
    ∀ (st : List VideoData) (i : Nat), (∀ v ∈ st, p v = false) →
      List.findIdx? p st i = none := by
  intro st
  induction st with
  | nil => intro i h; rfl
  | cons x xs ih =>
    intro i h
    have hx : p x = false := h x (List.mem_cons_self x xs)
    simp only [List.findIdx?, hx, Bool.false_eq_true, if_false]
    exact ih (i + 1) (fun v hv => h v (List.mem_cons_of_mem x hv))

/-- C10: when no record has the requested id, `mockProcessVideo` rejects
with `"Video not found"`, never invokes `onProgress`, and leaves the
mock list untouched. -/
theorem C10_mockProcessVideo_not_found :
    ∀ (videoId : String) (settings : PSettings) (hasCallback : Bool) (st : List VideoData),
      (∀ v ∈ st, v.id ≠ videoId) →
      mockProcessVideo videoId settings hasCallback st =
        { result := Except.error "Video not found", calls := [], state := st } := by
  intro videoId settings hb st h
  have hfind : st.findIdx? (fun v => v.id == videoId) = none :=
    findIdx?_none_of_forall _ st 0 (fun v hv => by simpa using h v hv)
  simp [mockProcessVideo, hfind]

/-- C10 witness: the not-found theorem at the seeded mock list and an
absent id. -/
theorem C10_not_found_witness :
    mockProcessVideo "999" {} true mockVideosInit =
      { result := Except.error "Video not found", calls := [], state := mockVideosInit } :=
  C10_mockProcessVideo_not_found "999" {} true mockVideosInit (by decide)

/-- A successful job-submission response carrying `jobId: "job-1"`. -/
def trJob1 : TransportResponse JobSubmit :=
  { ok := true, isJson := true, payload := { jobId := "job-1" } }

/-- A completed video record, as the job-result resource would return it. -/
def videoDone : VideoData :=
  { id := "v-1", name := some "done.mp4", status := some Status.completed }

/-- A successful transport response carrying `videoDone`. -/
def trVideoDone : TransportResponse VideoData :=
  { ok := true, isJson := true, payload := videoDone }

/-- A successful poll response with the given progress and completion flag. -/
def progressTick (p : Nat) (c : Bool) : PollTick :=
  PollTick.resp { ok := true, isJson := true, payload := { progress := p, completed := c } }

/-- Environment with a successful submit and result fetch and no polls. -/
def envP1 : PVEnv :=
  { submit := Fetch.got trJob1, videoFetch := Fetch.got trVideoDone }

def envG1 : GCEnv :=
  { submit := Fetch.got trJob1,
    clipsFetch := Fetch.got { ok := true, isJson := true, payload := [] } }

def envY1 : YTEnv :=
  { submit := Fetch.got trJob1, resultFetch := Fetch.got trVideoDone }

/-- C1 counterexample: in no-callback mode `uploadYoutubeVideo` does not
return an immediate `"processing"` placeholder — it waits for a fetch of
the job's result resource and returns that envelope; here the returned
record is the completed `videoDone`, not a processing placeholder. -/
theorem C1_yt_no_callback_counterexample :
    (uploadYoutubeVideo "https://youtu.be/dQw4w9WgXcQ" false "720p" envY1 []).result =
      { data := some videoDone } ∧
    videoDone.status = some Status.completed ∧
    some Status.completed ≠ some Status.processing ∧
    ({ data := some videoDone } : ApiResponse VideoData) ≠
      { data := some (pvPlaceholder "job-1") } := by
  refine ⟨rfl, rfl, by decide, by decide⟩

/-- C1 (amended): with no `onProgress` callback and a successful submit,
`processVideo` returns the immediate `"processing"` placeholder and
`generateClips` the immediate empty clip list, with no polling and no
progress calls; `uploadYoutubeVideo`, by contrast, starts no polling
either but waits on one fetch of the job's result resource and returns
its envelope. -/
theorem C1_no_callback_amended :
    ∀ (videoId url quality : String) (envP : PVEnv) (envG : GCEnv) (envY : YTEnv)
      (st : List VideoData) (trP trG trY : TransportResponse JobSubmit)
      (r2 : TransportResponse VideoData),
      envP.submit = Fetch.got trP → trP.ok = true →
      envG.submit = Fetch.got trG → trG.ok = true →
      envY.submit = Fetch.got trY → trY.ok = true →
      envY.resultFetch = Fetch.got r2 →
      processVideo videoId false envP =
        { result := { data := some (pvPlaceholder videoId) } } ∧
      generateClips videoId false envG =
        { result := { data := some ([] : List ClipData) } } ∧
      uploadYoutubeVideo url false quality envY st =
        { result := handleResponse r2, state := st } := by
  intro videoId url quality envP envG envY st trP trG trY r2 hP hPok hG hGok hY hYok hR
  obtain ⟨sP, pP, vP⟩ := envP
  obtain ⟨sG, pG, cG⟩ := envG
  obtain ⟨sY, pY, rY, tsY, dY⟩ := envY
  dsimp only at hP hG hY hR
  subst hP; subst hG; subst hY; subst hR
  refine ⟨?_, ?_, ?_⟩
  · simp [processVideo, handleResponse, hPok]
  · simp [generateClips, handleResponse, hGok]
  · simp [uploadYoutubeVideo, handleResponse, hYok]

/-- C1 witness: the amended no-callback behavior at concrete
environments with successful submits. -/
theorem C1_no_callback_witness :
    processVideo "vid-1" false envP1 =
      { result := { data := some (pvPlaceholder "vid-1") } } ∧
    generateClips "vid-1" false envG1 =
      { result := { data := some ([] : List ClipData) } } ∧
    uploadYoutubeVideo "u" false "720p" envY1 [] =
      { result := handleResponse trVideoDone, state := [] } :=
  C1_no_callback_amended "vid-1" "u" "720p" envP1 envG1 envY1 []
    trJob1 trJob1 trJob1 trVideoDone rfl rfl rfl rfl rfl rfl rfl

/-- Environment whose single poll reports completion at 100. -/
def envP2 : PVEnv :=
  { submit := Fetch.got trJob1, polls := [progressTick 100 true],
    videoFetch := Fetch.got trVideoDone }

/-- C2 counterexample: when a poll reports `completed=true`, the
interval is cleared and the final result is fetched and computed inside
the interval callback — but the submitting caller has already received
the `"processing"` placeholder, so the final result is never returned to
the original caller. -/
theorem C2_discarded_result_counterexample :
    (processVideo "vid-1" true envP2).obs.cleared = true ∧
    (processVideo "vid-1" true envP2).obs.inner = some { data := some videoDone } ∧
    (processVideo "vid-1" true envP2).result = { data := some (pvPlaceholder "vid-1") } ∧
    ({ data := some (pvPlaceholder "vid-1") } : ApiResponse VideoData) ≠
      { data := some videoDone } := by
  refine ⟨rfl, rfl, rfl, by decide⟩

/-- C2 (amended): on the first `completed=true` poll the client stops
polling (exactly the preceding ticks plus this one are issued, no
further progress calls) and computes the final result — the inline
payload or one extra result fetch — inside the interval callback, where
it is discarded; the submitting operation's caller receives only the
immediate `"processing"` placeholder it was given at submit time. -/
theorem C2_stop_and_discard_amended :
    ∀ (videoId url quality : String) (envP : PVEnv) (envY : YTEnv) (st : List VideoData)
      (trP trY : TransportResponse JobSubmit)
      (pre post preY postY : List PollTick) (t tY : PollTick) (pd pdY : ProgressPayload),
      envP.submit = Fetch.got trP → trP.ok = true →
      envP.polls = pre ++ t :: post →
      (∀ x ∈ pre, benign x = true) → tickData t = some pd → pd.completed = true →
      envY.submit = Fetch.got trY → trY.ok = true →
      envY.polls = preY ++ tY :: postY →
      (∀ x ∈ preY, benign x = true) → tickData tY = some pdY → pdY.completed = true →
      ((processVideo videoId true envP).obs =
        { calls := tickCalls pre ++ [pd.progress], polls := pre.length + 1,
          cleared := true, inner := pvFinish envP pd } ∧
       (processVideo videoId true envP).result =
        { data := some (pvPlaceholder videoId) }) ∧
      ((uploadYoutubeVideo url true quality envY st).obs =
        { calls := tickCalls preY ++ [pdY.progress], polls := preY.length + 1,
          cleared := true, inner := ytFinish envY pdY } ∧
       (uploadYoutubeVideo url true quality envY st).result =
        { data := some (pvPlaceholder trY.payload.jobId) }) := by
  intro videoId url quality envP envY st trP trY pre post preY postY t tY pd pdY
    hPs hPok hPp hpre ht hc hYs hYok hYp hpreY htY hcY
  obtain ⟨sP, plP, vP⟩ := envP
  obtain ⟨sY, plY, rY, tsY, dY⟩ := envY
  dsimp only at hPs hPp hYs hYp
  subst hPs; subst hPp; subst hYs; subst hYp
  have hdataP : (handleResponse trP).data = some trP.payload := by
    simp [handleResponse, hPok]
  have hdataY : (handleResponse trY).data = some trY.payload := by
    simp [handleResponse, hYok]
  have hrunP := runPollLoop_complete
    (pvFinish ⟨Fetch.got trP, pre ++ t :: post, vP⟩) pre t post pd hpre ht hc
  have hrunY := runPollLoop_complete
    (ytFinish ⟨Fetch.got trY, preY ++ tY :: postY, rY, tsY, dY⟩) preY tY postY pdY hpreY htY hcY
  refine ⟨⟨?_, ?_⟩, ?_, ?_⟩
  · simp [processVideo, hdataP, hrunP]
  · simp [processVideo, hdataP]
  · simp [uploadYoutubeVideo, hdataY, hrunY]
  · simp [uploadYoutubeVideo, hdataY]

/-- A completed poll response carrying the final record inline. -/
def inlineDoneTick : PollTick :=
  PollTick.resp
    { ok := true, isJson := true,
      payload := { progress := 100, completed := true, videoData := some videoDone } }

/-- Environment for the C2 witness: one benign poll at 30, completion at
100, successful result fetch. -/
def envP2b : PVEnv :=
  { submit := Fetch.got trJob1,
    polls := [progressTick 30 false, progressTick 100 true],
    videoFetch := Fetch.got trVideoDone }

/-- YouTube-path environment for the C2 witness: completion carries the
record inline. -/
def envY2 : YTEnv :=
  { submit := Fetch.got trJob1,
    polls := [progressTick 30 false, inlineDoneTick],
    resultFetch := Fetch.got trVideoDone }

/-- C2 witness: the amended theorem at a concrete run — one benign poll
at 30, then completion at 100 (with the payload inline on the YouTube
path). -/
theorem C2_stop_and_discard_witness :
    ((processVideo "vid-1" true envP2b).obs =
      { calls := [30, 100], polls := 2, cleared := true,
        inner := some { data := some videoDone } } ∧
     (processVideo "vid-1" true envP2b).result =
      { data := some (pvPlaceholder "vid-1") }) ∧
    ((uploadYoutubeVideo "u" true "720p" envY2 []).obs =
      { calls := [30, 100], polls := 2, cleared := true,
        inner := some { data := some videoDone } } ∧
     (uploadYoutubeVideo "u" true "720p" envY2 []).result =
      { data := some (pvPlaceholder "job-1") }) :=
  C2_stop_and_discard_amended "vid-1" "u" "720p" envP2b envY2 [] trJob1 trJob1
    [progressTick 30 false] [] [progressTick 30 false] []
    (progressTick 100 true) inlineDoneTick
    { progress := 100, completed := true }
    { progress := 100, completed := true, videoData := some videoDone }
    rfl rfl rfl (by decide) rfl rfl rfl rfl rfl (by decide) rfl rfl

/-- Environment whose polls report the regressing raw sequence
10, 60, 40, then completion at 100. -/
def envP3 : PVEnv :=
  { submit := Fetch.got trJob1,
    polls := [progressTick 10 false, progressTick 60 false,
              progressTick 40 false, progressTick 100 true],
    videoFetch := Fetch.got trVideoDone }

/-- C3 counterexample: the client forwards raw server progress values
unchanged — for raw `[10, 60, 40, 100]` the observed callback sequence
is `[10, 60, 40, 100]`, which is not non-decreasing and is not the
claimed corrected sequence `[10, 60, 60, 100]`. -/
theorem C3_regression_counterexample :
    (processVideo "vid-1" true envP3).callerCalls = [10, 60, 40, 100] ∧
    ¬ List.Chain' (fun a b : Nat => a ≤ b) [10, 60, 40, 100] ∧
    ([10, 60, 40, 100] : List Nat) ≠ [10, 60, 60, 100] := by
  refine ⟨rfl, ?_, by decide⟩
  norm_num [List.chain'_cons]

/-- C3 (amended): the progress values passed to `onProgress` are exactly
the raw values of the polls whose envelope carried data — no regression
is discarded — so the observed sequence is non-decreasing only when the
server's raw sequence is. -/
theorem C3_raw_passthrough_amended :
    ∀ (videoId : String) (envP : PVEnv) (trP : TransportResponse JobSubmit),
      envP.submit = Fetch.got trP → trP.ok = true →
      ((∀ x ∈ envP.polls, benign x = true) →
        (processVideo videoId true envP).callerCalls = tickCalls envP.polls) ∧
      (∀ (pre : List PollTick) (t : PollTick) (post : List PollTick) (pd : ProgressPayload),
        envP.polls = pre ++ t :: post →
        (∀ x ∈ pre, benign x = true) → tickData t = some pd → pd.completed = true →
        (processVideo videoId true envP).callerCalls = tickCalls pre ++ [pd.progress]) := by
  intro videoId envP trP hs hok
  obtain ⟨sb, pl, vf⟩ := envP
  dsimp only at hs
  subst hs
  have hdata : (handleResponse trP).data = some trP.payload := by
    simp [handleResponse, hok]
  constructor
  · intro hb
    simp [processVideo, hdata, runPollLoop_benign _ pl hb]
  · intro pre t post pd hpl hpre ht hc
    dsimp only at hpl
    subst hpl
    have hrun := runPollLoop_complete
      (pvFinish ⟨Fetch.got trP, pre ++ t :: post, vf⟩) pre t post pd hpre ht hc
    simp [processVideo, hdata, hrun]

/-- C3 witness: the raw pass-through at the concrete regressing run. -/
theorem C3_raw_passthrough_witness :
    (processVideo "vid-1" true envP3).callerCalls = [10, 60, 40, 100] :=
  (C3_raw_passthrough_amended "vid-1" envP3 trJob1 rfl rfl).2
    [progressTick 10 false, progressTick 60 false, progressTick 40 false]
    (progressTick 100 true) [] { progress := 100, completed := true }
    rfl (by decide) rfl rfl

/-- Environment in which the real transport is unreachable (mock
fallback active). -/
def envYthrow : YTEnv :=
  { submit := Fetch.threw "Failed to fetch",
    resultFetch := Fetch.threw "Failed to fetch" }

/-- C5 counterexample: on an invalid remote URL with the fallback
active, the error envelope is returned — but `onProgress` has already
been invoked once with 5, before validation, so it is not true that the
callback is never invoked. -/
theorem C5_initial_progress_counterexample :
    (uploadYoutubeVideo "badurl" true "720p" envYthrow []).result =
      { error := some "Invalid YouTube URL" } ∧
    (uploadYoutubeVideo "badurl" true "720p" envYthrow []).callerCalls = [5] ∧
    ([5] : List Nat) ≠ ([] : List Nat) := by
  refine ⟨rfl, rfl, by decide⟩

/-- C5 (amended): for every remote-URL input from which no 11-character
id can be extracted, `uploadYoutubeVideo` with the mock fallback active
returns the `"Invalid YouTube URL"` error envelope and leaves the mock
list unchanged; `onProgress` is invoked exactly once, with the initial
value 5 emitted before validation — the mock's simulated progress never
starts. -/
theorem C5_invalid_url_amended :
    ∀ (url quality msg : String) (envY : YTEnv) (st : List VideoData),
      envY.submit = Fetch.threw msg →
      getYoutubeVideoId url = none →
      uploadYoutubeVideo url true quality envY st =
        { result := { error := some "Invalid YouTube URL" },
          callerCalls := [5], state := st } := by
  intro url quality msg envY st hs h
  obtain ⟨sb, pl, rF, tS, dS⟩ := envY
  dsimp only at hs
  subst hs
  simp [uploadYoutubeVideo, ytFallback, mockUploadYoutubeVideo, h]

/-- C5 witness: the amended theorem at the concrete invalid URL
`"badurl"` with an unreachable transport. -/
theorem C5_invalid_url_witness :
    uploadYoutubeVideo "badurl" true "720p" envYthrow [] =
      { result := { error := some "Invalid YouTube URL" },
        callerCalls := [5], state := [] } :=
  C5_invalid_url_amended "badurl" "720p" "Failed to fetch" envYthrow [] rfl rfl

/-- C8: a thrown poll fetch is absorbed — it contributes one issued poll
and nothing else, and the loop behaves on the remaining ticks exactly as
it would have without the failure; in particular, if no subsequent poll
reports completion, the interval is never cleared, so no failure ever
aborts polling. -/
theorem C8_poll_failure_transient :
    ∀ (videoId url quality : String) (envP : PVEnv) (envY : YTEnv) (st : List VideoData)
      (trP trY : TransportResponse JobSubmit) (pre post preY postY : List PollTick),
      envP.submit = Fetch.got trP → trP.ok = true →
      envP.polls = pre ++ PollTick.throwErr :: post →
      (∀ x ∈ pre, benign x = true) →
      envY.submit = Fetch.got trY → trY.ok = true →
      envY.polls = preY ++ PollTick.throwErr :: postY →
      (∀ x ∈ preY, benign x = true) →
      ((processVideo videoId true envP).obs =
        { calls := tickCalls pre ++ (runPollLoop (pvFinish envP) post).calls,
          polls := pre.length + 1 + (runPollLoop (pvFinish envP) post).polls,
          cleared := (runPollLoop (pvFinish envP) post).cleared,
          inner := (runPollLoop (pvFinish envP) post).inner } ∧
       ((∀ x ∈ post, benign x = true) →
         (processVideo videoId true envP).obs.cleared = false)) ∧
      ((uploadYoutubeVideo url true quality envY st).obs =
        { calls := tickCalls preY ++ (runPollLoop (ytFinish envY) postY).calls,
          polls := preY.length + 1 + (runPollLoop (ytFinish envY) postY).polls,
          cleared := (runPollLoop (ytFinish envY) postY).cleared,
          inner := (runPollLoop (ytFinish envY) postY).inner } ∧
       ((∀ x ∈ postY, benign x = true) →
         (uploadYoutubeVideo url true quality envY st).obs.cleared = false)) := by
  intro videoId url quality envP envY st trP trY pre post preY postY
    hPs hPok hPp hpre hYs hYok hYp hpreY
  obtain ⟨sP, plP, vP⟩ := envP
  obtain ⟨sY, plY, rY, tS, dS⟩ := envY
  dsimp only at hPs hPp hYs hYp
  subst hPs; subst hPp; subst hYs; subst hYp
  have hdataP : (handleResponse trP).data = some trP.payload := by
    simp [handleResponse, hPok]
  have hdataY : (handleResponse trY).data = some trY.payload := by
    simp [handleResponse, hYok]
  have hskipP := runPollLoop_skip_fail
    (pvFinish ⟨Fetch.got trP, pre ++ PollTick.throwErr :: post, vP⟩) pre post hpre
  have hskipY := runPollLoop_skip_fail
    (ytFinish ⟨Fetch.got trY, preY ++ PollTick.throwErr :: postY, rY, tS, dS⟩) preY postY hpreY
  refine ⟨⟨?_, ?_⟩, ?_, ?_⟩
  · simp [processVideo, hdataP, hskipP]
  · intro hb
    simp [processVideo, hdataP, hskipP, runPollLoop_benign _ post hb]
  · simp [uploadYoutubeVideo, hdataY, hskipY]
  · intro hb
    simp [uploadYoutubeVideo, hdataY, hskipY, runPollLoop_benign _ postY hb]

/-- Environment with a transient poll failure between two benign polls. -/
def envP4 : PVEnv :=
  { submit := Fetch.got trJob1,
    polls := [progressTick 20 false, PollTick.throwErr, progressTick 50 false],
    videoFetch := Fetch.got trVideoDone }

/-- YouTube-path environment whose only poll tick fails. -/
def envY4 : YTEnv :=
  { submit := Fetch.got trJob1, polls := [PollTick.throwErr],
    resultFetch := Fetch.got trVideoDone }

/-- C8 witness: concrete runs where a poll fails and no later poll
completes — the interval is never cleared. -/
theorem C8_poll_failure_witness :
    (processVideo "vid-1" true envP4).obs.cleared = false ∧
    (uploadYoutubeVideo "u" true "720p" envY4 []).obs.cleared = false := by
  have h := C8_poll_failure_transient "vid-1" "u" "720p" envP4 envY4 [] trJob1 trJob1
    [progressTick 20 false] [progressTick 50 false] [] []
    rfl rfl rfl (by decide) rfl rfl rfl (by decide)
  exact ⟨h.1.2 (by decide), h.2.2 (by decide)⟩

theorem toList_append (a b : String) : (a ++ b).toList = a.toList ++ b.toList := rfl

theorem validateFilesGo_size_le (supported : List String) (maxMB : Nat) :
    ∀ (fs : List FileInfo) (err : Option String) (x : FileInfo),
      x ∈ (validateFilesGo supported maxMB fs err).1 →
      ¬ x.size > maxMB * 1024 * 1024 := by
  intro fs
  induction fs with
  | nil =>
    intro err x hx
    simp [validateFilesGo] at hx
  | cons f rest ih =>
    intro err x hx
    by_cases h1 : supported.contains (extensionOf f.name) = true
    · by_cases h2 : f.size > maxMB * 1024 * 1024
      · rw [validateFilesGo] at hx
        simp only [h1, Bool.not_true, Bool.false_eq_true, if_false, h2, if_true] at hx
        exact ih _ x hx
      · rw [validateFilesGo] at hx
        simp only [h1, Bool.not_true, Bool.false_eq_true, if_false, h2, if_false,
          List.mem_cons] at hx
        rcases hx with rfl | hx
        · exact h2
        · exact ih _ x hx
    · rw [validateFilesGo] at hx
      simp only [Bool.not_eq_true] at h1
      simp only [h1, Bool.not_false, if_true] at hx
      exact ih _ x hx

theorem validateFilesGo_last_oversize (supported : List String) (maxMB : Nat)
    (f : FileInfo) (hext : supported.contains (extensionOf f.name) = true)
    (hsize : f.size > maxMB * 1024 * 1024) :
    ∀ (fs : List FileInfo) (err : Option String),
      (validateFilesGo supported maxMB (fs ++ [f]) err).2 =
        some ("File too large: " ++ f.name ++ ". Maximum size is " ++
          toString maxMB ++ "MB") := by
  have hmem : extensionOf f.name ∈ supported := by simpa using hext
  intro fs
  induction fs with
  | nil =>
    intro err
    simp [validateFilesGo, hmem, hsize]
  | cons g gs ih =>
    intro err
    by_cases h1 : extensionOf g.name ∈ supported
    · by_cases h2 : maxMB * 1024 * 1024 < g.size
      · simp only [List.cons_append, validateFilesGo]
        simp [h1, h2]
        exact ih _
      · simp only [List.cons_append, validateFilesGo]
        simp [h1, h2]
        exact ih _
    · simp only [List.cons_append, validateFilesGo]
      simp [h1]
      exact ih _

/-- C7 (amended): every file larger than the configured maximum is
excluded from the returned valid list — so no upload request is ever
made for it — whatever the batch; when the file's extension is
supported, the size check is what rejects it and the resulting error
message contains the file's name (shown with the oversized file last,
since each invalid file overwrites the message).  A file rejected for an
unsupported extension instead yields a message citing the extension, not
the file's name. -/
theorem C7_oversize_rejected_amended :
    ∀ (supported : List String) (maxMB : Nat) (files : List FileInfo) (f : FileInfo),
      f.size > maxMB * 1024 * 1024 →
      f ∉ (validateFiles supported maxMB files).1 ∧
      (supported.contains (extensionOf f.name) = true →
        (validateFiles supported maxMB (files ++ [f])).2 =
          some ("File too large: " ++ f.name ++ ". Maximum size is " ++
            toString maxMB ++ "MB") ∧
        ContainsSub ("File too large: " ++ f.name ++ ". Maximum size is " ++
          toString maxMB ++ "MB") f.name) := by
  intro supported maxMB files f hsize
  constructor
  · intro hmem
    exact validateFilesGo_size_le supported maxMB files none f hmem hsize
  · intro hext
    refine ⟨validateFilesGo_last_oversize supported maxMB f hext hsize files none, ?_⟩
    refine ⟨"File too large: ".toList,
      (". Maximum size is " ++ toString maxMB ++ "MB").toList, ?_⟩
    simp [toList_append, List.append_assoc]

/-- An oversized file with an unsupported extension. -/
def hugeTxt : FileInfo := { name := "huge.txt", size := 629145600 }

/-- An oversized file with a supported extension. -/
def bigMp4 : FileInfo := { name := "big.mp4", size := 629145600 }

/-- C7 counterexample: an oversized file whose extension is unsupported
is rejected by the extension check, which runs first — the resulting
error message cites the extension and does not contain the file's name,
contradicting the claim that every oversized file's error message
contains its name. -/
theorem C7_extension_order_counterexample :
    (validateFiles defaultSupportedFormats defaultMaxFileSize [hugeTxt]).1 = [] ∧
    (validateFiles defaultSupportedFormats defaultMaxFileSize [hugeTxt]).2 =
      some "Unsupported file format: .txt. Please use: .mp4, .mov, .avi, .mkv, .webm" ∧
    hugeTxt.size > defaultMaxFileSize * 1024 * 1024 ∧
    ¬ ContainsSub "Unsupported file format: .txt. Please use: .mp4, .mov, .avi, .mkv, .webm"
      "huge.txt" := by
  refine ⟨by decide, by decide, by decide, ?_⟩
  rw [containsSub_iff_occurs]
  decide

/-- C7 witness: the amended theorem at a concrete oversized `.mp4`
file under the default limits. -/
theorem C7_oversize_witness :
    (validateFiles defaultSupportedFormats defaultMaxFileSize [bigMp4]).2 =
      some "File too large: big.mp4. Maximum size is 500MB" ∧
    bigMp4 ∉ (validateFiles defaultSupportedFormats defaultMaxFileSize [bigMp4]).1 := by
  have h1 := C7_oversize_rejected_amended defaultSupportedFormats defaultMaxFileSize
    [] bigMp4 (by decide)
  have h2 := C7_oversize_rejected_amended defaultSupportedFormats defaultMaxFileSize
    [bigMp4] bigMp4 (by decide)
  exact ⟨(h1.2 (by decide)).1, h2.1⟩
